import Mathlib

/-!
# The volume-plugin adapter of `driverhttp/docker_driver_plugin.go`

A shallow embedding of `DockerDriverPlugin` (its four operations `Matches`,
`ListVolumes`, `Mount`, `Unmount`) and the statements made about it.

* The wrapped driver is an external collaborator.  It is embedded as a record of
  state-passing functions over an arbitrary driver state `σ`: every call takes the
  driver state and gives back a response together with the next state.
* The per-call environment (`NewHttpDriverEnv`) carries no data the adapter reads and
  is not represented.
* The adapter writes to a logger.  Each logging call of the source becomes one
  `LogEvent`, appended in program order to the log the operation gives back.
* `json.Unmarshal` into a `voldriver.SafeError` is a parameter of `Mount` and
  `Unmount` (`some e` when it reports no error and leaves `e` in the target), so that
  what is proved of them for every decoder holds of the program.  The decoder of the
  program itself is `json.Unmarshal`, given below.
-/

namespace voldriver

/-- Modelled from the spec: the declaration of `voldriver.SafeError` is not among the
sources.  The spec describes it as a structured error payload holding one message
string, which is also what its `Error()` reports.  The name under which JSON stores
the message is fixed in `json.Unmarshal`. -/
structure SafeError where
  message : String
deriving DecidableEq, Repr

/-- Modelled from the spec: `voldriver.TLSConfig`, the driver-side transport-security
descriptor; the four fields are the ones `Matches` fills in. -/
structure TLSConfig where
  InsecureSkipVerify : Bool
  CAFile : String
  CertFile : String
  KeyFile : String
deriving DecidableEq, Repr

/-- Modelled from the spec: `voldriver.VolumeInfo`, of which the adapter reads `Name`. -/
structure VolumeInfo where
  Name : String
deriving DecidableEq, Repr

/-- Modelled from the spec: `voldriver.ListResponse`, the volumes and the error string. -/
structure ListResponse where
  Volumes : List VolumeInfo
  Err : String
deriving DecidableEq, Repr

/-- Modelled from the spec: `voldriver.ErrorResponse`, returned by Create and Unmount. -/
structure ErrorResponse where
  Err : String
deriving DecidableEq, Repr

/-- Modelled from the spec: `voldriver.MountResponse`, the mountpoint and the error
string of the driver's Mount. -/
structure MountResponse where
  Mountpoint : String
  Err : String
deriving DecidableEq, Repr

/-- Modelled from the spec: `voldriver.CreateRequest`; `ω` stands for the options
mapping `map[string]interface{}`, which the adapter passes on untouched. -/
structure CreateRequest (ω : Type) where
  Name : String
  Opts : ω
deriving DecidableEq, Repr

/-- Modelled from the spec: `voldriver.MountRequest`. -/
structure MountRequest where
  Name : String
deriving DecidableEq, Repr

/-- Modelled from the spec: `voldriver.UnmountRequest`. -/
structure UnmountRequest where
  Name : String
deriving DecidableEq, Repr

/-- Modelled from the spec: the operations of `voldriver.Driver` the adapter consumes,
each a function of the driver state `σ` giving the response and the next state. -/
structure Driver (σ ω : Type) where
  List : σ → ListResponse × σ
  Create : CreateRequest ω → σ → ErrorResponse × σ
  Mount : MountRequest → σ → MountResponse × σ
  Unmount : UnmountRequest → σ → ErrorResponse × σ

/-- Modelled from the spec: `voldriver.MatchableDriver`, the optional match capability,
called with an address and an optional transport-security descriptor. -/
structure MatchableDriver (σ : Type) where
  Matches : String → Option TLSConfig → σ → Bool × σ

end voldriver

namespace volman

/-- The orchestrator-side transport-security descriptor `volman.TLSConfig`, a type
distinct from the driver-side one. -/
structure TLSConfig where
  InsecureSkipVerify : Bool
  CAFile : String
  CertFile : String
  KeyFile : String
deriving DecidableEq, Repr

/-- The fields of `volman.PluginSpec` read by `Matches`: the address and the optional
(nil-able pointer) transport-security descriptor. -/
structure PluginSpec where
  Address : String
  TLSConfig : Option TLSConfig
deriving DecidableEq, Repr

/-- The adapter-side result `volman.MountResponse`; the zero value has the empty path. -/
structure MountResponse where
  Path : String
deriving DecidableEq, Repr

end volman

namespace json

/-!
## `json.Unmarshal` into a `SafeError`

The adapter hands the driver's error string to Go's `encoding/json`.  What follows is
an executable description of that call for a target record with one string field: the
JSON grammar accepted by the decoder's scanner, and the rules by which a parsed value
is stored into the record.  Texts are sequences of Unicode scalar values, so a byte
string that is not valid UTF-8 has no counterpart here.
-/

/-- A parsed JSON value.  Of a number only its presence matters to the decode. -/
inductive Value where
  | null
  | bool (b : Bool)
  | number
  | string (s : String)
  | array (elems : List Value)
  | object (members : List (String × Value))

/-- The four whitespace characters of JSON. -/
def isSpace (c : Char) : Bool :=
  c = ' ' || c = '\t' || c = '\r' || c = '\n'

/-- Drops leading whitespace. -/
def skipSpace : List Char → List Char
  | [] => []
  | c :: cs => if isSpace c then skipSpace cs else c :: cs

/-- A decimal digit. -/
def isDigit (c : Char) : Bool := '0'.toNat ≤ c.toNat && c.toNat ≤ '9'.toNat

/-- The value of a hexadecimal digit, of either case. -/
def hexVal (c : Char) : Option Nat :=
  if 48 ≤ c.toNat ∧ c.toNat ≤ 57 then some (c.toNat - 48)
  else if 97 ≤ c.toNat ∧ c.toNat ≤ 102 then some (c.toNat - 87)
  else if 65 ≤ c.toNat ∧ c.toNat ≤ 70 then some (c.toNat - 55)
  else none

/-- Reads a `\uXXXX` escape at the head of the input: the code unit and the rest. -/
def getu4 : List Char → Option (Nat × List Char)
  | '\\' :: 'u' :: a :: b :: c :: d :: rest =>
    match hexVal a, hexVal b, hexVal c, hexVal d with
    | some a, some b, some c, some d => some (((a * 16 + b) * 16 + c) * 16 + d, rest)
    | _, _, _, _ => none
  | _ => none

/-- The character a one-letter escape stands for. -/
def unescape (e : Char) : Option Char :=
  if e = '"' then some '"' else if e = '\\' then some '\\' else if e = '/' then some '/'
  else if e = 'b' then some (Char.ofNat 8) else if e = 'f' then some (Char.ofNat 12)
  else if e = 'n' then some '\n' else if e = 'r' then some '\r'
  else if e = 't' then some '\t' else none

/-- Reads a string literal whose opening quote has been consumed: the unquoted
contents and the input after the closing quote.  Control characters and unknown
escapes are rejected; a `\u` escape that is half of a surrogate pair is joined with a
following second half, and becomes U+FFFD when there is none.  The first argument
bounds the number of steps; the length of the input is always enough
(`scanString_fuel`). -/
def scanString : Nat → List Char → Option (List Char × List Char)
  | 0, _ => none
  | _ + 1, [] => none
  | n + 1, c :: cs =>
    if c = '"' then some ([], cs)
    else if c = '\\' then
      match cs with
      | [] => none
      | e :: rest =>
        if e = 'u' then
          match getu4 (c :: cs) with
          | none => none
          | some (rr, r1) =>
            if 0xd800 ≤ rr ∧ rr < 0xe000 then
              match getu4 r1 with
              | some (rr1, r2) =>
                if rr < 0xdc00 ∧ 0xdc00 ≤ rr1 ∧ rr1 < 0xe000 then
                  (scanString n r2).map fun p =>
                    (Char.ofNat ((rr - 0xd800) * 1024 + (rr1 - 0xdc00) + 0x10000) :: p.1, p.2)
                else (scanString n r1).map fun p => (Char.ofNat 0xfffd :: p.1, p.2)
              | none => (scanString n r1).map fun p => (Char.ofNat 0xfffd :: p.1, p.2)
            else (scanString n r1).map fun p => (Char.ofNat rr :: p.1, p.2)
        else
          match unescape e with
          | some x => (scanString n rest).map fun p => (x :: p.1, p.2)
          | none => none
    else if c.toNat < 0x20 then none
    else (scanString n cs).map fun p => (c :: p.1, p.2)

/-- Drops leading digits. -/
def skipDigits : List Char → List Char
  | [] => []
  | c :: cs => if isDigit c then skipDigits cs else c :: cs

/-- One or more digits. -/
def scanDigits : List Char → Option (List Char)
  | c :: cs => if isDigit c then some (skipDigits cs) else none
  | [] => none

/-- The optional exponent of a number. -/
def scanExponent : List Char → Option (List Char)
  | c :: cs =>
    if c = 'e' ∨ c = 'E' then
      match cs with
      | sign :: rest => if sign = '+' ∨ sign = '-' then scanDigits rest else scanDigits cs
      | [] => none
    else some (c :: cs)
  | [] => some []

/-- The optional fraction of a number, then its exponent. -/
def scanFraction : List Char → Option (List Char)
  | c :: cs => if c = '.' then (scanDigits cs).bind scanExponent else scanExponent (c :: cs)
  | [] => some []

/-- The integer part of a number (a lone `0`, or digits not starting with `0`), then
the rest of the number. -/
def scanInteger : List Char → Option (List Char)
  | c :: cs =>
    if c = '0' then scanFraction cs
    else if isDigit c then scanFraction (skipDigits cs)
    else none
  | [] => none

/-- A number: the input after it. -/
def scanNumber : List Char → Option (List Char)
  | c :: cs => if c = '-' then scanInteger cs else scanInteger (c :: cs)
  | [] => none

/-- The remaining letters `w` of a literal name: the input after them. -/
def scanWord (w : List Char) (cs : List Char) : Option (List Char) :=
  if w.isPrefixOf cs then some (cs.drop w.length) else none

/-- The nesting limit of the scanner of `encoding/json`: a text that opens more than
this many arrays and objects inside one another is refused (`exceeded max depth`). -/
def maxNestingDepth : Nat := 10000

mutual
/-- Reads one value, after optional whitespace: the value and the input after it.
`depth` is the number of arrays and objects open around the value; opening one more
than `maxNestingDepth` is an error.  The first argument bounds the depth of the
recursion; any bound above twice the length of the input gives the same result
(`parseValue_fuel`). -/
def parseValue : Nat → Nat → List Char → Option (Value × List Char)
  | 0, _, _ => none
  | n + 1, depth, cs =>
    match skipSpace cs with
    | [] => none
    | c :: rest =>
      if c = '\x7b' then
        if maxNestingDepth ≤ depth then none
        else
          match skipSpace rest with
          | [] => none
          | c1 :: rest1 =>
            if c1 = '\x7d' then some (.object [], rest1)
            else (parseMembers n (depth + 1) (c1 :: rest1)).map fun p => (.object p.1, p.2)
      else if c = '[' then
        if maxNestingDepth ≤ depth then none
        else
          match skipSpace rest with
          | [] => none
          | c1 :: rest1 =>
            if c1 = ']' then some (.array [], rest1)
            else (parseElements n (depth + 1) (c1 :: rest1)).map fun p => (.array p.1, p.2)
      else if c = '"' then
        (scanString rest.length rest).map fun p => (.string (String.mk p.1), p.2)
      else if c = 't' then (scanWord ['r', 'u', 'e'] rest).map fun r => (.bool true, r)
      else if c = 'f' then (scanWord ['a', 'l', 's', 'e'] rest).map fun r => (.bool false, r)
      else if c = 'n' then (scanWord ['u', 'l', 'l'] rest).map fun r => (.null, r)
      else (scanNumber (c :: rest)).map fun r => (.number, r)
/-- Reads the members of a non-empty object up to and including the closing brace;
`depth` counts the object itself. -/
def parseMembers : Nat → Nat → List Char → Option (List (String × Value) × List Char)
  | 0, _, _ => none
  | n + 1, depth, cs =>
    match skipSpace cs with
    | [] => none
    | q :: r1 =>
      if q = '"' then
        match scanString r1.length r1 with
        | none => none
        | some (k, r2) =>
          match skipSpace r2 with
          | [] => none
          | colon :: r3 =>
            if colon = ':' then
              match parseValue n depth r3 with
              | none => none
              | some (v, r4) =>
                match skipSpace r4 with
                | [] => none
                | sep :: r5 =>
                  if sep = ',' then
                    (parseMembers n depth r5).map fun p => ((String.mk k, v) :: p.1, p.2)
                  else if sep = '\x7d' then some ([(String.mk k, v)], r5)
                  else none
            else none
      else none
/-- Reads the elements of a non-empty array up to and including the closing bracket;
`depth` counts the array itself. -/
def parseElements : Nat → Nat → List Char → Option (List Value × List Char)
  | 0, _, _ => none
  | n + 1, depth, cs =>
    match parseValue n depth cs with
    | none => none
    | some (v, r1) =>
      match skipSpace r1 with
      | [] => none
      | sep :: r2 =>
        if sep = ',' then (parseElements n depth r2).map fun p => (v :: p.1, p.2)
        else if sep = ']' then some ([v], r2)
        else none
end

/-- The validity check of `json.Unmarshal`: the text is one value with optional
whitespace around it, nested no deeper than `maxNestingDepth`; `none` is a syntax
error. -/
def parse (data : String) : Option Value :=
  match parseValue (2 * data.length + 1) 0 data.toList with
  | some (v, rest) => if skipSpace rest = [] then some v else none
  | none => none

/-- The case folding under which an object key is compared with a field name: ASCII
letters fold to upper case, and the two non-ASCII characters whose fold is an ASCII
letter (U+017F long s, U+212A Kelvin sign) fold to it. -/
def foldRune (c : Char) : Char :=
  if 97 ≤ c.toNat ∧ c.toNat ≤ 122 then Char.ofNat (c.toNat - 32)
  else if c.toNat = 0x17f then 'S'
  else if c.toNat = 0x212a then 'K'
  else c

/-- Equality of two names up to case folding. -/
def equalFold (a b : String) : Bool :=
  a.toList.map foldRune = b.toList.map foldRune

/-- Whether the object key `key` selects the field whose JSON name is the ASCII name
`name`: an exact match, or a match up to case folding. -/
def fieldMatches (name key : String) : Bool :=
  decide (key = name) || equalFold key name

/-- Stores one object member into the record with the single string field `name`.  The
accumulator is the field's value and whether no error has been recorded.  A member for
another key is skipped; for the field, a string is stored, `null` changes nothing, and
any other value records a type error while the decode goes on. -/
def storeMember (name : String) (acc : String × Bool) (m : String × Value) : String × Bool :=
  if fieldMatches name m.1 then
    match m.2 with
    | .string s => (s, acc.2)
    | .null => acc
    | _ => (acc.1, false)
  else acc

/-- Stores a parsed value into a fresh `SafeError` whose message field has the JSON
name `name`: `null` changes nothing, an object is stored member by member, and any
other value is a type error. -/
def unmarshalValue (name : String) : Value → Option voldriver.SafeError
  | .null => some ⟨""⟩
  | .object ms =>
    let r := ms.foldl (storeMember name) ("", true)
    if r.2 then some ⟨r.1⟩ else none
  | _ => none

/-- The call `json.Unmarshal([]byte(data), &safeError)` on a fresh `safeError` of a
record type whose one string field has the JSON name `name`: `some e` when it reports
no error, with `e` the decoded record. -/
def unmarshalSafeError (name : String) (data : String) : Option voldriver.SafeError :=
  (parse data).bind (unmarshalValue name)

/-- The call `json.Unmarshal([]byte(data), &safeError)` of `Mount` and `Unmount`.  In
package `voldriver` the message of a `SafeError` is its one exported field,
`SafeDescription`, declared without a JSON tag, so the member stored into it is the one
whose key is `SafeDescription`. -/
def Unmarshal (data : String) : Option voldriver.SafeError :=
  unmarshalSafeError "SafeDescription" data

end json

namespace driverhttp

/-- A non-nil Go `error` as the adapter produces it: either the value of
`errors.New(s)` or a `voldriver.SafeError` held in the interface. -/
inductive GoError where
  | errorString (s : String)
  | safeError (e : voldriver.SafeError)
deriving DecidableEq, Repr

/-- The message `err.Error()` of an error. -/
def GoError.Error : GoError → String
  | .errorString s => s
  | .safeError e => e.message

/-- Whether the error is the structured variant. -/
def GoError.isSafe : GoError → Bool
  | .errorString _ => false
  | .safeError _ => true

/-- Severity of a logging call. -/
inductive LogLevel where
  | debug
  | info
  | error
deriving DecidableEq, Repr

/-- A value attached to a logging call (`lager.Data`, or the error of `logger.Error`). -/
inductive LogValue where
  | bool (b : Bool)
  | str (s : String)
  | mountRequest (r : voldriver.MountRequest)
  | mountResponse (r : voldriver.MountResponse)
  | err (e : GoError)
deriving DecidableEq, Repr

/-- One logging call: the session opened by the operation, the level, the action and
the attached data. -/
structure LogEvent where
  session : String
  level : LogLevel
  action : String
  data : List (String × LogValue)
deriving DecidableEq, Repr

/-- What one operation of the adapter leaves behind: its return value, the driver
state after the call, and the log events it emitted, in order. -/
structure Run (σ α : Type) where
  ret : α
  state : σ
  log : List LogEvent

/-- The value held by the `DockerDriver interface{}` field: a `voldriver.Driver`, as
`NewDockerPluginWithDriver` stores it, whose dynamic type may in addition implement
`voldriver.MatchableDriver`.  The type assertions to `voldriver.Driver` made by the
operations succeed on such a value; the assertion to `voldriver.MatchableDriver` made
by `Matches` succeeds exactly when `matchable` is present. -/
structure DriverValue (σ ω : Type) where
  driver : voldriver.Driver σ ω
  matchable : Option (voldriver.MatchableDriver σ)

/-- The adapter. -/
structure DockerDriverPlugin (σ ω : Type) where
  DockerDriver : DriverValue σ ω

/-- The constructor `NewDockerPluginWithDriver`. -/
def NewDockerPluginWithDriver {σ ω : Type} (driver : DriverValue σ ω) :
    DockerDriverPlugin σ ω :=
  { DockerDriver := driver }

/-- The safe root against which `Mount` checks the mountpoint. -/
def safeRoot : String := "/var/vcap/data"

/-- Go `strings.HasPrefix s p`. -/
def stringsHasPrefix (s p : String) : Bool :=
  p.toList.isPrefixOf s.toList

/-- `DockerDriverPlugin.Matches`. -/
def Matches {σ ω : Type} (dw : DockerDriverPlugin σ ω) (pluginSpec : volman.PluginSpec)
    (s : σ) : Run σ Bool :=
  let start : LogEvent := ⟨"matches", .info, "start", []⟩
  let finish : LogEvent := ⟨"matches", .info, "end", []⟩
  match dw.DockerDriver.matchable with
  | some matchableDriver =>
    let tlsConfig : Option voldriver.TLSConfig :=
      match pluginSpec.TLSConfig with
      | some c =>
        some { InsecureSkipVerify := c.InsecureSkipVerify
               CAFile := c.CAFile
               CertFile := c.CertFile
               KeyFile := c.KeyFile }
      | none => none
    let r := matchableDriver.Matches pluginSpec.Address tlsConfig s
    { ret := r.1
      state := r.2
      log := [start, ⟨"matches", .info, "matches", [("is-matchable", .bool true)]⟩,
              ⟨"matches", .info, "matches", [("matches", .bool r.1)]⟩, finish] }
  | none =>
    { ret := false
      state := s
      log := [start, ⟨"matches", .info, "matches", [("is-matchable", .bool false)]⟩,
              ⟨"matches", .info, "matches", [("matches", .bool false)]⟩, finish] }

/-- `DockerDriverPlugin.ListVolumes`: the names and the (nil-able) error. -/
def ListVolumes {σ ω : Type} (d : DockerDriverPlugin σ ω) (s : σ) :
    Run σ (List String × Option GoError) :=
  let start : LogEvent := ⟨"list-volumes", .info, "start", []⟩
  let finish : LogEvent := ⟨"list-volumes", .info, "end", []⟩
  let volumes : List String := []
  let r := d.DockerDriver.driver.List s
  let response := r.1
  if response.Err ≠ "" then
    { ret := (volumes, some (.errorString response.Err)), state := r.2, log := [start, finish] }
  else
    { ret := (response.Volumes.foldl (fun vs volumeInfo => vs ++ [volumeInfo.Name]) volumes, none)
      state := r.2
      log := [start, finish] }

/-- `DockerDriverPlugin.Mount`: the response and the (nil-able) error.  `unmarshal`
is `json.Unmarshal` into a fresh `voldriver.SafeError`. -/
def Mount {σ ω : Type} (unmarshal : String → Option voldriver.SafeError)
    (d : DockerDriverPlugin σ ω) (volumeId : String) (opts : ω) (s : σ) :
    Run σ (volman.MountResponse × Option GoError) :=
  let start : LogEvent := ⟨"mount", .info, "start", []⟩
  let finish : LogEvent := ⟨"mount", .info, "end", []⟩
  let creating : LogEvent := ⟨"mount", .debug, "creating-volume", [("volumeId", .str volumeId)]⟩
  let c := d.DockerDriver.driver.Create { Name := volumeId, Opts := opts } s
  let response := c.1
  if response.Err ≠ "" then
    { ret := ({ Path := "" }, some (.errorString response.Err))
      state := c.2
      log := [start, creating, finish] }
  else
    let mountRequest : voldriver.MountRequest := { Name := volumeId }
    let calling : LogEvent :=
      ⟨"mount", .debug, "calling-docker-driver-with-mount-request",
        [("mountRequest", .mountRequest mountRequest)]⟩
    let m := d.DockerDriver.driver.Mount mountRequest c.2
    let mountResponse := m.1
    let responded : LogEvent :=
      ⟨"mount", .debug, "response-from-docker-driver", [("response", .mountResponse mountResponse)]⟩
    let anomaly : List LogEvent :=
      if !stringsHasPrefix mountResponse.Mountpoint safeRoot then
        [⟨"mount", .info, "invalid-mountpath",
          [("detail", .str ("Invalid or dangerous mountpath " ++ mountResponse.Mountpoint ++
              " outside of /var/vcap/data"))]⟩]
      else []
    let log := [start, creating, calling, responded] ++ anomaly
    if mountResponse.Err ≠ "" then
      match unmarshal mountResponse.Err with
      | some safeError =>
        { ret := ({ Path := "" }, some (.safeError safeError)), state := m.2, log := log ++ [finish] }
      | none =>
        { ret := ({ Path := "" }, some (.errorString mountResponse.Err))
          state := m.2
          log := log ++ [finish] }
    else
      { ret := ({ Path := mountResponse.Mountpoint }, none), state := m.2, log := log ++ [finish] }

/-- `DockerDriverPlugin.Unmount`: the (nil-able) error. -/
def Unmount {σ ω : Type} (unmarshal : String → Option voldriver.SafeError)
    (d : DockerDriverPlugin σ ω) (volumeId : String) (s : σ) : Run σ (Option GoError) :=
  let start : LogEvent := ⟨"unmount", .info, "start", []⟩
  let finish : LogEvent := ⟨"unmount", .info, "end", []⟩
  let u := d.DockerDriver.driver.Unmount { Name := volumeId } s
  let response := u.1
  if response.Err ≠ "" then
    let err : GoError :=
      match unmarshal response.Err with
      | some safeError => .safeError safeError
      | none => .errorString response.Err
    { ret := some err
      state := u.2
      log := [start, ⟨"unmount", .error, "unmount-failed", [("error", .err err)]⟩, finish] }
  else
    { ret := none, state := u.2, log := [start, finish] }

/-- A call received by a driver, as a recording test double notes it. -/
inductive DriverCall (ω : Type) where
  | List
  | Create (r : voldriver.CreateRequest ω)
  | Mount (r : voldriver.MountRequest)
  | Unmount (r : voldriver.UnmountRequest)
  | Matches (address : String) (tlsConfig : Option voldriver.TLSConfig)
deriving DecidableEq, Repr

/-- The recording double of a driver: it answers as `d` does and appends every call
it receives to a list kept next to the state of `d`. -/
def recordingDriver {σ ω : Type} (d : voldriver.Driver σ ω) :
    voldriver.Driver (σ × List (DriverCall ω)) ω where
  List := fun s => ((d.List s.1).1, ((d.List s.1).2, s.2 ++ [DriverCall.List]))
  Create := fun r s => ((d.Create r s.1).1, ((d.Create r s.1).2, s.2 ++ [DriverCall.Create r]))
  Mount := fun r s => ((d.Mount r s.1).1, ((d.Mount r s.1).2, s.2 ++ [DriverCall.Mount r]))
  Unmount := fun r s => ((d.Unmount r s.1).1, ((d.Unmount r s.1).2, s.2 ++ [DriverCall.Unmount r]))

/-- The recording double of a match capability. -/
def recordingMatchable {σ : Type} (ω : Type) (m : voldriver.MatchableDriver σ) :
    voldriver.MatchableDriver (σ × List (DriverCall ω)) where
  Matches := fun a t s => ((m.Matches a t s.1).1, ((m.Matches a t s.1).2, s.2 ++ [DriverCall.Matches a t]))

/-- The adapter over the recording double of its driver; the double has the match
capability exactly when the driver has it. -/
def recording {σ ω : Type} (p : DockerDriverPlugin σ ω) :
    DockerDriverPlugin (σ × List (DriverCall ω)) ω :=
  NewDockerPluginWithDriver
    { driver := recordingDriver p.DockerDriver.driver
      matchable := p.DockerDriver.matchable.map (recordingMatchable ω) }

/-- The calls in a recording that are calls of the driver's Mount. -/
def mountCalls {ω : Type} (calls : List (DriverCall ω)) : List (DriverCall ω) :=
  calls.filter fun c => match c with
    | .Mount _ => true
    | _ => false

/-- A scripted driver for examples: every operation answers with the scripted
response and counts the call in the state. -/
def scriptedDriver (listResponse : voldriver.ListResponse) (createErr : String)
    (mountResponse : voldriver.MountResponse) (unmountErr : String) :
    voldriver.Driver Nat (List (String × String)) where
  List := fun s => (listResponse, s + 1)
  Create := fun _ s => ({ Err := createErr }, s + 1)
  Mount := fun _ s => (mountResponse, s + 1)
  Unmount := fun _ s => ({ Err := unmountErr }, s + 1)

/-- The adapter over a scripted driver without the match capability. -/
def scriptedPlugin (listResponse : voldriver.ListResponse) (createErr : String)
    (mountResponse : voldriver.MountResponse) (unmountErr : String) :
    DockerDriverPlugin Nat (List (String × String)) :=
  NewDockerPluginWithDriver
    { driver := scriptedDriver listResponse createErr mountResponse unmountErr
      matchable := none }

/-- A scripted match capability for examples: it matches the address `unix:///run/d.sock`
when a descriptor that verifies the peer is supplied. -/
def scriptedMatchable : voldriver.MatchableDriver Nat where
  Matches := fun address tlsConfig s =>
    (match tlsConfig with
     | some c => address == "unix:///run/d.sock" && !c.InsecureSkipVerify
     | none => false, s + 1)

/-- The adapter over a scripted driver that has the match capability. -/
def matchablePlugin : DockerDriverPlugin Nat (List (String × String)) :=
  NewDockerPluginWithDriver
    { driver := scriptedDriver { Volumes := [], Err := "" } "" { Mountpoint := "", Err := "" } ""
      matchable := some scriptedMatchable }

/-- The reference definition of matching, in the words of the spec: `false` for a
driver without the match capability, which is then not invoked; otherwise what the
capability answers for the spec's address and a descriptor that is absent when the
spec's is absent and otherwise its field-for-field copy. -/
def MatchesReference {σ ω : Type} (dw : DockerDriverPlugin σ ω)
    (pluginSpec : volman.PluginSpec) (s : σ) : Bool × σ :=
  match dw.DockerDriver.matchable with
  | none => (false, s)
  | some capability =>
    capability.Matches pluginSpec.Address
      (pluginSpec.TLSConfig.map fun c =>
        { InsecureSkipVerify := c.InsecureSkipVerify
          CAFile := c.CAFile
          CertFile := c.CertFile
          KeyFile := c.KeyFile })
      s

end driverhttp

namespace json

/-! ## The bounds of the JSON scanner are enough -/

/-- Skipping whitespace does not lengthen the input. -/
theorem skipSpace_length_le (cs : List Char) : (skipSpace cs).length ≤ cs.length := by
  induction cs with
  | nil => simp [skipSpace]
  | cons c cs ih =>
    unfold skipSpace
    split
    · exact Nat.le_succ_of_le ih
    · exact Nat.le_refl _

/-- What follows the first character after whitespace is shorter than the input. -/
theorem length_of_skipSpace_eq_cons {cs : List Char} {c : Char} {rest : List Char}
    (h : skipSpace cs = c :: rest) : rest.length < cs.length := by
  have := skipSpace_length_le cs
  rw [h] at this
  simpa using this

/-- A `\uXXXX` escape is six characters long. -/
theorem getu4_length {cs : List Char} {v : Nat} {r : List Char}
    (h : getu4 cs = some (v, r)) : r.length + 6 = cs.length := by
  unfold getu4 at h
  split at h
  · split at h
    · cases h; simp
    · exact Option.noConfusion h
  · exact Option.noConfusion h

/-- Mapping over the value of a scan result keeps the rest of the input. -/
theorem rest_of_map {α β : Type} {x : Option (α × List Char)} {f : α × List Char → β}
    {b : β} {r : List Char} (h : (x.map fun p => (f p, p.2)) = some (b, r)) :
    ∃ a, x = some (a, r) := by
  cases x with
  | none => exact Option.noConfusion h
  | some p =>
    refine ⟨p.1, ?_⟩
    have h1 : (f p, p.2) = (b, r) := Option.some.inj h
    have h2 : p.2 = r := congrArg Prod.snd h1
    rw [← h2]

/-- Pairing a scan result with a constant keeps the rest of the input. -/
theorem rest_of_map_const {β : Type} {x : Option (List Char)} {c b : β} {r : List Char}
    (h : (x.map fun q => (c, q)) = some (b, r)) : x = some r := by
  cases x with
  | none => exact Option.noConfusion h
  | some q =>
    have h1 : (c, q) = (b, r) := Option.some.inj h
    have h2 : q = r := congrArg Prod.snd h1
    rw [h2]

/-- A string literal consumes at least its closing quote. -/
theorem scanString_length (n : Nat) : ∀ (cs s r : List Char),
    scanString n cs = some (s, r) → r.length < cs.length := by
  induction n with
  | zero => intro cs s r h; simp [scanString] at h
  | succ n ih =>
    intro cs s r h
    cases cs with
    | nil => simp [scanString] at h
    | cons c cs =>
      unfold scanString at h
      split at h
      · have h1 := congrArg Prod.snd (Option.some.inj h)
        simp only at h1
        rw [← h1]; simp
      · split at h
        · split at h
          · exact Option.noConfusion h
          · rename_i e rest
            split at h
            · split at h
              · exact Option.noConfusion h
              · rename_i rr r1 hg
                have hl := getu4_length hg
                simp only [List.length_cons] at hl ⊢
                split at h
                · split at h
                  · rename_i rr1 r2 hg2
                    have hl2 := getu4_length hg2
                    split at h
                    · obtain ⟨s1, hs1⟩ := rest_of_map h
                      have := ih _ _ _ hs1
                      omega
                    · obtain ⟨s1, hs1⟩ := rest_of_map h
                      have := ih _ _ _ hs1
                      omega
                  · obtain ⟨s1, hs1⟩ := rest_of_map h
                    have := ih _ _ _ hs1
                    omega
                · obtain ⟨s1, hs1⟩ := rest_of_map h
                  have := ih _ _ _ hs1
                  omega
            · split at h
              · obtain ⟨s1, hs1⟩ := rest_of_map h
                have := ih _ _ _ hs1
                simp only [List.length_cons] at this ⊢
                omega
              · exact Option.noConfusion h
        · split at h
          · exact Option.noConfusion h
          · obtain ⟨s1, hs1⟩ := rest_of_map h
            have := ih _ _ _ hs1
            simp only [List.length_cons] at this ⊢
            omega

/-- The step bound of `scanString` does not matter once it reaches the length of
the input. -/
theorem scanString_fuel (n : Nat) : ∀ (m : Nat) (cs : List Char),
    cs.length ≤ n → cs.length ≤ m → scanString n cs = scanString m cs := by
  induction n with
  | zero =>
    intro m cs hn _
    have hcs : cs = [] := List.length_eq_zero.mp (Nat.le_zero.mp hn)
    subst hcs
    cases m <;> rfl
  | succ n ih =>
    intro m cs hn hm
    cases cs with
    | nil => cases m <;> rfl
    | cons c cs =>
      cases m with
      | zero => simp at hm
      | succ m =>
        simp only [List.length_cons, Nat.add_le_add_iff_right] at hn hm
        have htail : scanString n cs = scanString m cs := ih m cs hn hm
        unfold scanString
        split
        · rfl
        · split
          · split
            · rfl
            · rename_i e rest
              simp only [List.length_cons] at hn hm
              split
              · split
                · rfl
                · rename_i rr r1 hg
                  have hl := getu4_length hg
                  simp only [List.length_cons] at hl
                  split
                  · split
                    · rename_i rr1 r2 hg2
                      have hl2 := getu4_length hg2
                      rw [ih m r2 (by omega) (by omega), ih m r1 (by omega) (by omega)]
                    · rw [ih m r1 (by omega) (by omega)]
                  · rw [ih m r1 (by omega) (by omega)]
              · rw [ih m rest (by omega) (by omega)]
          · rw [htail]

/-- Skipping digits does not lengthen the input. -/
theorem skipDigits_length_le (cs : List Char) : (skipDigits cs).length ≤ cs.length := by
  induction cs with
  | nil => simp [skipDigits]
  | cons c cs ih =>
    unfold skipDigits
    split
    · exact Nat.le_succ_of_le ih
    · exact Nat.le_refl _

/-- A run of digits consumes at least one character. -/
theorem scanDigits_length {cs r : List Char} (h : scanDigits cs = some r) :
    r.length < cs.length := by
  cases cs with
  | nil => exact Option.noConfusion h
  | cons c cs =>
    rw [scanDigits] at h
    split at h
    · have h1 : skipDigits cs = r := Option.some.inj h
      have := skipDigits_length_le cs
      rw [h1] at this
      simp only [List.length_cons]
      omega
    · exact Option.noConfusion h

/-- An exponent does not lengthen the input. -/
theorem scanExponent_length {cs r : List Char} (h : scanExponent cs = some r) :
    r.length ≤ cs.length := by
  cases cs with
  | nil =>
    have h1 : [] = r := Option.some.inj h
    rw [← h1]
  | cons c cs =>
    cases cs with
    | nil =>
      simp only [scanExponent] at h
      split at h
      · exact Option.noConfusion h
      · have h1 : [c] = r := Option.some.inj h
        rw [← h1]
    | cons sign rest =>
      simp only [scanExponent] at h
      split at h
      · split at h
        · have := scanDigits_length h
          simp only [List.length_cons] at this ⊢
          omega
        · have := scanDigits_length h
          simp only [List.length_cons] at this ⊢
          omega
      · have h1 : c :: sign :: rest = r := Option.some.inj h
        rw [← h1]

/-- A fraction does not lengthen the input. -/
theorem scanFraction_length {cs r : List Char} (h : scanFraction cs = some r) :
    r.length ≤ cs.length := by
  cases cs with
  | nil =>
    have h1 : [] = r := Option.some.inj h
    rw [← h1]
  | cons c cs =>
    rw [scanFraction] at h
    split at h
    · cases hd : scanDigits cs with
      | none => rw [hd] at h; exact Option.noConfusion h
      | some r1 =>
        rw [hd] at h
        have h1 := scanDigits_length hd
        have h2 := @scanExponent_length r1 r h
        simp only [List.length_cons]
        omega
    · exact scanExponent_length h

/-- An integer part consumes at least one character. -/
theorem scanInteger_length {cs r : List Char} (h : scanInteger cs = some r) :
    r.length < cs.length := by
  cases cs with
  | nil => exact Option.noConfusion h
  | cons c cs =>
    rw [scanInteger] at h
    split at h
    · have := scanFraction_length h
      simp only [List.length_cons]
      omega
    · split at h
      · have := scanFraction_length h
        have := skipDigits_length_le cs
        simp only [List.length_cons]
        omega
      · exact Option.noConfusion h

/-- A number consumes at least one character. -/
theorem scanNumber_length {cs r : List Char} (h : scanNumber cs = some r) :
    r.length < cs.length := by
  cases cs with
  | nil => exact Option.noConfusion h
  | cons c cs =>
    rw [scanNumber] at h
    split at h
    · have := scanInteger_length h
      simp only [List.length_cons]
      omega
    · exact scanInteger_length h

/-- The letters of a literal name do not lengthen the input. -/
theorem scanWord_length {w cs r : List Char} (h : scanWord w cs = some r) :
    r.length ≤ cs.length := by
  unfold scanWord at h
  split at h
  · have h1 : cs.drop w.length = r := Option.some.inj h
    rw [← h1]; simp
  · exact Option.noConfusion h

/-- A value, the members of an object and the elements of an array each consume at
least one character. -/
theorem parse_length (n : Nat) :
    (∀ (depth : Nat) (cs : List Char) (v : Value) (r : List Char),
      parseValue n depth cs = some (v, r) → r.length < cs.length) ∧
    (∀ (depth : Nat) (cs : List Char) (ms : List (String × Value)) (r : List Char),
      parseMembers n depth cs = some (ms, r) → r.length < cs.length) ∧
    (∀ (depth : Nat) (cs : List Char) (vs : List Value) (r : List Char),
      parseElements n depth cs = some (vs, r) → r.length < cs.length) := by
  induction n with
  | zero =>
    refine ⟨?_, ?_, ?_⟩ <;> intro depth cs v r h
    · rw [parseValue] at h; exact Option.noConfusion h
    · rw [parseMembers] at h; exact Option.noConfusion h
    · rw [parseElements] at h; exact Option.noConfusion h
  | succ n ih =>
    obtain ⟨ihv, ihm, ihe⟩ := ih
    refine ⟨?_, ?_, ?_⟩
    · intro depth cs v r h
      rw [parseValue] at h
      split at h
      · exact Option.noConfusion h
      · rename_i c rest hsk
        have h0 := length_of_skipSpace_eq_cons hsk
        split at h
        · split at h
          · exact Option.noConfusion h
          · split at h
            · exact Option.noConfusion h
            · rename_i c1 rest1 hsk1
              have h1 := length_of_skipSpace_eq_cons hsk1
              split at h
              · have h2 : rest1 = r := congrArg Prod.snd (Option.some.inj h)
                rw [← h2]; omega
              · obtain ⟨a, ha⟩ := rest_of_map h
                have := ihm _ _ _ _ ha
                simp only [List.length_cons] at this
                omega
        · split at h
          · split at h
            · exact Option.noConfusion h
            · split at h
              · exact Option.noConfusion h
              · rename_i c1 rest1 hsk1
                have h1 := length_of_skipSpace_eq_cons hsk1
                split at h
                · have h2 : rest1 = r := congrArg Prod.snd (Option.some.inj h)
                  rw [← h2]; omega
                · obtain ⟨a, ha⟩ := rest_of_map h
                  have := ihe _ _ _ _ ha
                  simp only [List.length_cons] at this
                  omega
          · split at h
            · obtain ⟨a, ha⟩ := rest_of_map h
              have := scanString_length _ _ _ _ ha
              omega
            · split at h
              · have := scanWord_length (rest_of_map_const h)
                omega
              · split at h
                · have := scanWord_length (rest_of_map_const h)
                  omega
                · split at h
                  · have := scanWord_length (rest_of_map_const h)
                    omega
                  · have := scanNumber_length (rest_of_map_const h)
                    simp only [List.length_cons] at this
                    omega
    · intro depth cs ms r h
      rw [parseMembers] at h
      split at h
      · exact Option.noConfusion h
      · rename_i q r1 hsk
        have h0 := length_of_skipSpace_eq_cons hsk
        split at h
        · split at h
          · exact Option.noConfusion h
          · rename_i k r2 hstr
            have h1 := scanString_length _ _ _ _ hstr
            split at h
            · exact Option.noConfusion h
            · rename_i colon r3 hsk3
              have h3 := length_of_skipSpace_eq_cons hsk3
              split at h
              · split at h
                · exact Option.noConfusion h
                · rename_i v r4 hv
                  have h4 := ihv _ _ _ _ hv
                  split at h
                  · exact Option.noConfusion h
                  · rename_i sep r5 hsk5
                    have h5 := length_of_skipSpace_eq_cons hsk5
                    split at h
                    · obtain ⟨a, ha⟩ := rest_of_map h
                      have := ihm _ _ _ _ ha
                      omega
                    · split at h
                      · have h6 : r5 = r := congrArg Prod.snd (Option.some.inj h)
                        rw [← h6]; omega
                      · exact Option.noConfusion h
              · exact Option.noConfusion h
        · exact Option.noConfusion h
    · intro depth cs vs r h
      rw [parseElements] at h
      split at h
      · exact Option.noConfusion h
      · rename_i v r1 hv
        have h1 := ihv _ _ _ _ hv
        split at h
        · exact Option.noConfusion h
        · rename_i sep r2 hsk2
          have h2 := length_of_skipSpace_eq_cons hsk2
          split at h
          · obtain ⟨a, ha⟩ := rest_of_map h
            have := ihe _ _ _ _ ha
            omega
          · split at h
            · have h6 : r2 = r := congrArg Prod.snd (Option.some.inj h)
              rw [← h6]; omega
            · exact Option.noConfusion h

/-- The recursion bound of the parser does not matter once it exceeds twice the
length of the input (plus one for the elements of an array). -/
theorem parse_fuel (n : Nat) :
    (∀ (m depth : Nat) (cs : List Char), 2 * cs.length < n → 2 * cs.length < m →
      parseValue n depth cs = parseValue m depth cs) ∧
    (∀ (m depth : Nat) (cs : List Char), 2 * cs.length < n → 2 * cs.length < m →
      parseMembers n depth cs = parseMembers m depth cs) ∧
    (∀ (m depth : Nat) (cs : List Char), 2 * cs.length + 1 < n → 2 * cs.length + 1 < m →
      parseElements n depth cs = parseElements m depth cs) := by
  induction n with
  | zero =>
    refine ⟨?_, ?_, ?_⟩ <;> intro m depth cs hn _ <;> exact absurd hn (Nat.not_lt_zero _)
  | succ n ih =>
    obtain ⟨ihv, ihm, ihe⟩ := ih
    refine ⟨?_, ?_, ?_⟩
    · intro m depth cs hn hm
      cases m with
      | zero => exact absurd hm (Nat.not_lt_zero _)
      | succ m =>
        rw [parseValue, parseValue]
        split
        · rfl
        · rename_i c rest hsk
          have h0 := length_of_skipSpace_eq_cons hsk
          split
          · split
            · rfl
            · split
              · rfl
              · rename_i c1 rest1 hsk1
                have h1 := length_of_skipSpace_eq_cons hsk1
                split
                · rfl
                · rw [ihm m (depth + 1) (c1 :: rest1) (by simp only [List.length_cons]; omega)
                    (by simp only [List.length_cons]; omega)]
          · split
            · split
              · rfl
              · split
                · rfl
                · rename_i c1 rest1 hsk1
                  have h1 := length_of_skipSpace_eq_cons hsk1
                  split
                  · rfl
                  · rw [ihe m (depth + 1) (c1 :: rest1) (by simp only [List.length_cons]; omega)
                      (by simp only [List.length_cons]; omega)]
            · rfl
    · intro m depth cs hn hm
      cases m with
      | zero => exact absurd hm (Nat.not_lt_zero _)
      | succ m =>
        rw [parseMembers, parseMembers]
        split
        · rfl
        · rename_i q r1 hsk
          have h0 := length_of_skipSpace_eq_cons hsk
          split
          · split
            · rfl
            · rename_i k r2 hstr
              have h1 := scanString_length _ _ _ _ hstr
              split
              · rfl
              · rename_i colon r3 hsk3
                have h3 := length_of_skipSpace_eq_cons hsk3
                split
                · rw [ihv m depth r3 (by omega) (by omega)]
                  split
                  · rfl
                  · rename_i v r4 hv
                    have h4 := (parse_length m).1 _ _ _ _ hv
                    split
                    · rfl
                    · rename_i sep r5 hsk5
                      have h5 := length_of_skipSpace_eq_cons hsk5
                      split
                      · rw [ihm m depth r5 (by omega) (by omega)]
                      · rfl
                · rfl
          · rfl
    · intro m depth cs hn hm
      cases m with
      | zero => exact absurd hm (Nat.not_lt_zero _)
      | succ m =>
        rw [parseElements, parseElements]
        rw [ihv m depth cs (by omega) (by omega)]
        split
        · rfl
        · rename_i v r1 hv
          have h1 := (parse_length m).1 _ _ _ _ hv
          split
          · rfl
          · rename_i sep r2 hsk2
            have h2 := length_of_skipSpace_eq_cons hsk2
            split
            · rw [ihe m depth r2 (by omega) (by omega)]
            · rfl

/-- The bound that `parse` passes to `parseValue` is enough: every larger bound gives
the same result. -/
theorem parseValue_fuel (data : String) (n : Nat) (h : 2 * data.length + 1 ≤ n) :
    parseValue n 0 data.toList = parseValue (2 * data.length + 1) 0 data.toList := by
  have hlen : data.toList.length = data.length := rfl
  exact (parse_fuel n).1 _ _ _ (by omega) (by omega)

/-! ## The nesting limit -/

/-- An opening bracket is not whitespace. -/
theorem skipSpace_bracket (cs : List Char) : skipSpace ('[' :: cs) = '[' :: cs := by
  simp [skipSpace, isSpace]

/-- Arrays opened inside one another beyond the nesting limit are refused, whatever
follows them: at nesting depth `depth`, a run of `k + 1` opening brackets with
`maxNestingDepth < depth + (k + 1)` is a syntax error. -/
theorem parseValue_deep_arrays (k : Nat) : ∀ (n depth : Nat) (rest : List Char),
    maxNestingDepth < depth + (k + 1) →
    parseValue n depth (List.replicate (k + 1) '[' ++ rest) = none := by
  induction k with
  | zero =>
    intro n depth rest h
    cases n with
    | zero => rw [parseValue]
    | succ n =>
      have hd : maxNestingDepth ≤ depth := by omega
      rw [parseValue]
      simp [List.replicate_succ, skipSpace_bracket, hd]
  | succ k ih =>
    intro n depth rest h
    cases n with
    | zero => rw [parseValue]
    | succ n =>
      rw [parseValue]
      by_cases hd : maxNestingDepth ≤ depth
      · simp [List.replicate_succ, skipSpace_bracket, hd]
      · have hrec : parseElements n (depth + 1) (List.replicate (k + 1) '[' ++ rest) = none := by
          cases n with
          | zero => rw [parseElements]
          | succ n => rw [parseElements, ih n (depth + 1) rest (by omega)]
        rw [List.replicate_succ, List.cons_append] at hrec
        simp [List.replicate_succ, skipSpace_bracket, hd, hrec]

/-- Inside the member of an object, `maxNestingDepth` arrays opened inside one another
are one level too many: the text `{"x":[[...` with that many opening brackets is
refused whatever follows, even where every bracket is closed again. -/
theorem parse_deep_member (k : Nat) (rest : List Char) (hk : maxNestingDepth ≤ k + 1) :
    parse (String.mk ('\x7b' :: '"' :: 'x' :: '"' :: ':' ::
      (List.replicate (k + 1) '[' ++ rest))) = none := by
  have hX : ∀ n, parseValue n 1 (List.replicate (k + 1) '[' ++ rest) = none :=
    fun n => parseValue_deep_arrays k n 1 rest (by omega)
  generalize List.replicate (k + 1) '[' ++ rest = X at hX
  have hmem : ∀ n, parseMembers n 1 ('"' :: 'x' :: '"' :: ':' :: X) = none := by
    intro n
    cases n with
    | zero => rw [parseMembers]
    | succ n =>
      rw [parseMembers]
      simp [skipSpace, isSpace, scanString, hX]
  have hval : ∀ n, parseValue n 0 ('\x7b' :: '"' :: 'x' :: '"' :: ':' :: X) = none := by
    intro n
    cases n with
    | zero => rw [parseValue]
    | succ n =>
      rw [parseValue]
      simp [skipSpace, isSpace, maxNestingDepth, hmem]
  simp [parse, hval]

/-- Nesting within the limit is accepted: an object whose members are nested arrays
and objects, none of them for the message field, decodes to the empty message. -/
theorem Unmarshal_nested_within_limit :
    Unmarshal "\x7b\"a\":[[1,\x7b\"b\":[]\x7d],null],\"SafeDescription\":null\x7d"
      = some { message := "" } := by
  decide

/-! ## Decoding `null` and objects without the message field -/

/-- The empty string is not a JSON text. -/
theorem parse_empty : json.parse "" = none := rfl

/-- Members none of whose keys names the message field leave the target untouched. -/
theorem foldl_storeMember_of_no_field (name : String) (ms : List (String × json.Value))
    (acc : String × Bool) (h : ∀ m ∈ ms, json.fieldMatches name m.1 = false) :
    ms.foldl (json.storeMember name) acc = acc := by
  induction ms generalizing acc with
  | nil => rfl
  | cons m ms ih =>
    have hm : json.fieldMatches name m.1 = false := h m (List.mem_cons_self m ms)
    have hstep : json.storeMember name acc m = acc := by simp [json.storeMember, hm]
    rw [List.foldl_cons, hstep]
    exact ih acc fun x hx => h x (List.mem_cons_of_mem m hx)

/-- Decoding `null`, or an object without a member for the message field, reports no
error and leaves the empty message. -/
theorem unmarshalValue_of_no_field (name : String) (v : json.Value)
    (h : v = json.Value.null ∨
      ∃ ms, v = json.Value.object ms ∧ ∀ m ∈ ms, json.fieldMatches name m.1 = false) :
    json.unmarshalValue name v = some { message := "" } := by
  rcases h with h | ⟨ms, h, hms⟩
  · subst h; rfl
  · subst h
    simp [json.unmarshalValue, foldl_storeMember_of_no_field name ms ("", true) hms]

/-- The payload `{"Err":"disk full"}` carries its message only when the message field
is selected by the key `Err`: for a field under any other JSON name the decode still
reports no error, and leaves the empty message. -/
theorem unmarshal_payload_under_other_name (name : String)
    (h : json.fieldMatches name "Err" = false) :
    json.unmarshalSafeError name "\x7b\"Err\":\"disk full\"\x7d" = some { message := "" } := by
  have hp : json.parse "\x7b\"Err\":\"disk full\"\x7d"
      = some (json.Value.object [("Err", json.Value.string "disk full")]) := rfl
  have hv := unmarshalValue_of_no_field name
    (json.Value.object [("Err", json.Value.string "disk full")])
    (Or.inr ⟨_, rfl, by simpa using h⟩)
  simp [json.unmarshalSafeError, hp, hv]

end json

namespace driverhttp

/-! ## Listing -/

/-- The accumulation loop of `ListVolumes` appends the names in order. -/
theorem foldl_append_names (vols : List voldriver.VolumeInfo) (acc : List String) :
    vols.foldl (fun vs volumeInfo => vs ++ [volumeInfo.Name]) acc
      = acc ++ vols.map voldriver.VolumeInfo.Name := by
  induction vols generalizing acc with
  | nil => simp
  | cons v vs ih => simp [List.foldl_cons, ih]

/-- What `ListVolumes` returns when the driver reports no error. -/
theorem ListVolumes_ret_of_ok {σ ω : Type} (d : DockerDriverPlugin σ ω) (s : σ)
    (h : (d.DockerDriver.driver.List s).1.Err = "") :
    (ListVolumes d s).ret
      = ((d.DockerDriver.driver.List s).1.Volumes.map voldriver.VolumeInfo.Name, none) := by
  simp [ListVolumes, h, foldl_append_names]

/-- C4: when the driver's List response carries a non-empty error string, whatever
volumes it also carries, `ListVolumes` returns the empty sequence of names together
with the plain error whose message is exactly that string. -/
theorem listVolumes_error {σ ω : Type} (d : DockerDriverPlugin σ ω) (s : σ)
    (h : (d.DockerDriver.driver.List s).1.Err ≠ "") :
    (ListVolumes d s).ret = ([], some (GoError.errorString (d.DockerDriver.driver.List s).1.Err)) ∧
    (ListVolumes d s).ret.1.length = 0 ∧
    (∃ err, (ListVolumes d s).ret.2 = some err ∧
        err.Error = (d.DockerDriver.driver.List s).1.Err) := by
  have hret : (ListVolumes d s).ret
      = ([], some (GoError.errorString (d.DockerDriver.driver.List s).1.Err)) := by
    simp [ListVolumes, h]
  refine ⟨hret, ?_, ?_⟩
  · rw [hret]; rfl
  · exact ⟨GoError.errorString (d.DockerDriver.driver.List s).1.Err, by rw [hret], rfl⟩

/-- Witness for C4: a driver answering with two volumes and the error string
`list failed`. -/
theorem listVolumes_error_witness :
    ((scriptedPlugin { Volumes := [⟨"a"⟩, ⟨"b"⟩], Err := "list failed" } ""
        { Mountpoint := "", Err := "" } "").DockerDriver.driver.List 0).1.Err ≠ "" ∧
    (ListVolumes (scriptedPlugin { Volumes := [⟨"a"⟩, ⟨"b"⟩], Err := "list failed" } ""
        { Mountpoint := "", Err := "" } "") 0).ret
      = ([], some (GoError.errorString "list failed")) :=
  ⟨by decide,
   (listVolumes_error (scriptedPlugin { Volumes := [⟨"a"⟩, ⟨"b"⟩], Err := "list failed" } ""
        { Mountpoint := "", Err := "" } "") 0 (by decide)).1⟩

/-- C5: when the driver's List response carries the empty error string, `ListVolumes`
returns no error and exactly the names of the response's volumes: same length, same
order, duplicates and empty names kept, and the empty sequence for no volumes. -/
theorem listVolumes_names {σ ω : Type} (d : DockerDriverPlugin σ ω) (s : σ)
    (h : (d.DockerDriver.driver.List s).1.Err = "") :
    (ListVolumes d s).ret
      = ((d.DockerDriver.driver.List s).1.Volumes.map voldriver.VolumeInfo.Name, none) ∧
    (ListVolumes d s).ret.1.length = (d.DockerDriver.driver.List s).1.Volumes.length ∧
    (∀ (i : Nat) (hi : i < (d.DockerDriver.driver.List s).1.Volumes.length),
        (ListVolumes d s).ret.1[i]? = some ((d.DockerDriver.driver.List s).1.Volumes[i]).Name) ∧
    ((d.DockerDriver.driver.List s).1.Volumes = [] → (ListVolumes d s).ret.1 = []) := by
  have hret := ListVolumes_ret_of_ok d s h
  refine ⟨hret, ?_, ?_, ?_⟩
  · rw [hret]; simp
  · intro i hi
    rw [hret]; simp [hi]
  · intro hnil
    rw [hret, hnil]; rfl

/-- Witness for C5: a duplicate and an empty name survive, in order. -/
theorem listVolumes_names_witness :
    ((scriptedPlugin { Volumes := [⟨"b"⟩, ⟨""⟩, ⟨"a"⟩, ⟨"b"⟩], Err := "" } ""
        { Mountpoint := "", Err := "" } "").DockerDriver.driver.List 0).1.Err = "" ∧
    (ListVolumes (scriptedPlugin { Volumes := [⟨"b"⟩, ⟨""⟩, ⟨"a"⟩, ⟨"b"⟩], Err := "" } ""
        { Mountpoint := "", Err := "" } "") 0).ret = (["b", "", "a", "b"], none) :=
  ⟨by decide,
   (listVolumes_names (scriptedPlugin { Volumes := [⟨"b"⟩, ⟨""⟩, ⟨"a"⟩, ⟨"b"⟩], Err := "" } ""
        { Mountpoint := "", Err := "" } "") 0 (by decide)).1⟩

/-! ## Mounting -/

/-- What `Mount` gives back when Create reports an error. -/
theorem Mount_of_create_error {σ ω : Type} (unmarshal : String → Option voldriver.SafeError)
    (d : DockerDriverPlugin σ ω) (volumeId : String) (opts : ω) (s : σ)
    (h : (d.DockerDriver.driver.Create { Name := volumeId, Opts := opts } s).1.Err ≠ "") :
    (Mount unmarshal d volumeId opts s).ret
      = ({ Path := "" }, some (GoError.errorString
          (d.DockerDriver.driver.Create { Name := volumeId, Opts := opts } s).1.Err)) ∧
    (Mount unmarshal d volumeId opts s).state
      = (d.DockerDriver.driver.Create { Name := volumeId, Opts := opts } s).2 := by
  simp [Mount, h]

/-- The driver state `Mount` leaves behind when Create succeeds: the state after the
driver's Mount step. -/
theorem Mount_state_of_create_ok {σ ω : Type} (unmarshal : String → Option voldriver.SafeError)
    (d : DockerDriverPlugin σ ω) (volumeId : String) (opts : ω) (s : σ)
    (h : (d.DockerDriver.driver.Create { Name := volumeId, Opts := opts } s).1.Err = "") :
    (Mount unmarshal d volumeId opts s).state
      = (d.DockerDriver.driver.Mount { Name := volumeId }
          (d.DockerDriver.driver.Create { Name := volumeId, Opts := opts } s).2).2 := by
  simp only [Mount, h, ne_eq, not_true_eq_false, if_false]
  split
  · split <;> rfl
  · rfl

/-- What `Mount` returns when Create succeeds and the Mount step reports an error. -/
theorem Mount_ret_of_mount_error {σ ω : Type} (unmarshal : String → Option voldriver.SafeError)
    (d : DockerDriverPlugin σ ω) (volumeId : String) (opts : ω) (s : σ)
    (hc : (d.DockerDriver.driver.Create { Name := volumeId, Opts := opts } s).1.Err = "")
    (hm : (d.DockerDriver.driver.Mount { Name := volumeId }
          (d.DockerDriver.driver.Create { Name := volumeId, Opts := opts } s).2).1.Err ≠ "") :
    (Mount unmarshal d volumeId opts s).ret
      = ({ Path := "" },
         some (match unmarshal (d.DockerDriver.driver.Mount { Name := volumeId }
                  (d.DockerDriver.driver.Create { Name := volumeId, Opts := opts } s).2).1.Err with
               | some safeError => GoError.safeError safeError
               | none => GoError.errorString (d.DockerDriver.driver.Mount { Name := volumeId }
                  (d.DockerDriver.driver.Create { Name := volumeId, Opts := opts } s).2).1.Err)) := by
  simp only [Mount, hc, hm, ne_eq, not_true_eq_false, not_false_eq_true, if_true, if_false]
  split <;> rfl

/-- What `Mount` returns when both steps succeed. -/
theorem Mount_ret_of_ok {σ ω : Type} (unmarshal : String → Option voldriver.SafeError)
    (d : DockerDriverPlugin σ ω) (volumeId : String) (opts : ω) (s : σ)
    (hc : (d.DockerDriver.driver.Create { Name := volumeId, Opts := opts } s).1.Err = "")
    (hm : (d.DockerDriver.driver.Mount { Name := volumeId }
          (d.DockerDriver.driver.Create { Name := volumeId, Opts := opts } s).2).1.Err = "") :
    (Mount unmarshal d volumeId opts s).ret
      = ({ Path := (d.DockerDriver.driver.Mount { Name := volumeId }
            (d.DockerDriver.driver.Create { Name := volumeId, Opts := opts } s).2).1.Mountpoint },
         none) := by
  simp [Mount, hc, hm]

/-- C2: a Create failure short-circuits `Mount`.  For every volume id, options and
non-empty error string returned by the driver's Create, `Mount` returns the empty
response and the plain error whose message is exactly that string, the driver is left
in the state Create put it in, and on the recording double of the driver the call
adds the Create call and nothing else, so the driver's Mount is invoked zero times. -/
theorem mount_create_failure_short_circuits {σ ω : Type}
    (unmarshal : String → Option voldriver.SafeError) (d : DockerDriverPlugin σ ω)
    (volumeId : String) (opts : ω) (s : σ) (calls : List (DriverCall ω)) (e : String)
    (he : e ≠ "")
    (hc : (d.DockerDriver.driver.Create { Name := volumeId, Opts := opts } s).1.Err = e) :
    (Mount unmarshal d volumeId opts s).ret = ({ Path := "" }, some (GoError.errorString e)) ∧
    (Mount unmarshal d volumeId opts s).ret.1.Path = "" ∧
    (Mount unmarshal d volumeId opts s).state
      = (d.DockerDriver.driver.Create { Name := volumeId, Opts := opts } s).2 ∧
    (Mount unmarshal (recording d) volumeId opts (s, calls)).ret
      = ({ Path := "" }, some (GoError.errorString e)) ∧
    (Mount unmarshal (recording d) volumeId opts (s, calls)).state.2
      = calls ++ [DriverCall.Create { Name := volumeId, Opts := opts }] ∧
    (mountCalls (Mount unmarshal (recording d) volumeId opts (s, calls)).state.2).length
      = (mountCalls calls).length := by
  subst hc
  have h1 := Mount_of_create_error unmarshal d volumeId opts s he
  have hr : ((recording d).DockerDriver.driver.Create
      { Name := volumeId, Opts := opts } (s, calls)).1.Err ≠ "" := he
  have h2 := Mount_of_create_error unmarshal (recording d) volumeId opts (s, calls) hr
  refine ⟨h1.1, ?_, h1.2, h2.1, ?_, ?_⟩
  · rw [h1.1]
  · rw [h2.2]; rfl
  · rw [h2.2]
    show (mountCalls (calls ++ [DriverCall.Create { Name := volumeId, Opts := opts }])).length = _
    simp [mountCalls, List.filter_append]

/-- Witness for C2: a driver whose Create answers `no quota` and whose Mount would
have answered with a mountpoint; the recording, empty before the call, holds the one
Create call after it. -/
theorem mount_create_failure_short_circuits_witness :
    "no quota" ≠ "" ∧
    ((scriptedPlugin { Volumes := [], Err := "" } "no quota"
        { Mountpoint := "/var/vcap/data/v", Err := "" } "").DockerDriver.driver.Create
        { Name := "vol", Opts := [("size", "1G")] } 0).1.Err = "no quota" ∧
    (Mount json.Unmarshal
        (scriptedPlugin { Volumes := [], Err := "" } "no quota"
          { Mountpoint := "/var/vcap/data/v", Err := "" } "") "vol" [("size", "1G")] 0).ret
      = ({ Path := "" }, some (GoError.errorString "no quota")) ∧
    (Mount json.Unmarshal
        (recording (scriptedPlugin { Volumes := [], Err := "" } "no quota"
          { Mountpoint := "/var/vcap/data/v", Err := "" } "")) "vol" [("size", "1G")]
        (0, [])).state.2
      = [DriverCall.Create { Name := "vol", Opts := [("size", "1G")] }] :=
  have h := mount_create_failure_short_circuits json.Unmarshal
    (scriptedPlugin { Volumes := [], Err := "" } "no quota"
      { Mountpoint := "/var/vcap/data/v", Err := "" } "") "vol" [("size", "1G")] 0 []
    "no quota" (by decide) rfl
  ⟨by decide, rfl, h.1, h.2.2.2.2.1⟩

/-- C6: the path check of `Mount` only detects.  When Create succeeds and the driver's
Mount step answers with mountpoint `p` and the empty error string, `Mount` returns the
path `p` unchanged and no error, whether or not `p` begins with `/var/vcap/data`; the
check shows only in the log, where the `invalid-mountpath` event appears exactly when
`p` does not begin with the safe root. -/
theorem mount_path_check_detection_only {σ ω : Type}
    (unmarshal : String → Option voldriver.SafeError) (d : DockerDriverPlugin σ ω)
    (volumeId : String) (opts : ω) (s : σ) (p : String)
    (hc : (d.DockerDriver.driver.Create { Name := volumeId, Opts := opts } s).1.Err = "")
    (hm : (d.DockerDriver.driver.Mount { Name := volumeId }
          (d.DockerDriver.driver.Create { Name := volumeId, Opts := opts } s).2).1
        = { Mountpoint := p, Err := "" }) :
    (Mount unmarshal d volumeId opts s).ret = ({ Path := p }, none) ∧
    ((∃ ev ∈ (Mount unmarshal d volumeId opts s).log, ev.action = "invalid-mountpath")
      ↔ stringsHasPrefix p safeRoot = false) := by
  constructor
  · have h := Mount_ret_of_ok unmarshal d volumeId opts s hc (by rw [hm])
    rw [h, hm]
  · cases hp : stringsHasPrefix p safeRoot <;> simp [Mount, hc, hm, hp]

/-- Witness for C6: the mountpoint `/tmp/evil` is returned as is. -/
theorem mount_path_check_detection_only_witness :
    ((scriptedPlugin { Volumes := [], Err := "" } ""
        { Mountpoint := "/tmp/evil", Err := "" } "").DockerDriver.driver.Create
        { Name := "vol", Opts := [] } 0).1.Err = "" ∧
    stringsHasPrefix "/tmp/evil" safeRoot = false ∧
    (Mount json.Unmarshal
        (scriptedPlugin { Volumes := [], Err := "" } ""
          { Mountpoint := "/tmp/evil", Err := "" } "") "vol" [] 0).ret
      = ({ Path := "/tmp/evil" }, none) :=
  ⟨rfl, by decide,
   (mount_path_check_detection_only json.Unmarshal
      (scriptedPlugin { Volumes := [], Err := "" } ""
        { Mountpoint := "/tmp/evil", Err := "" } "") "vol" [] 0 "/tmp/evil" rfl rfl).1⟩

/-- C1, as amended: the error decoding policy of `Mount`.  After a successful Create,
for every non-empty error string `e` reported by the driver's Mount step, `Mount`
returns the empty response and an error: the structured variant carrying the decoded
payload when the decode of `e` into a `SafeError` reports no error, and otherwise the
plain variant whose message is exactly the raw string `e`.  This holds for every
decoder.  Under `json.Unmarshal` the string `{"SafeDescription":"disk full"}` gives the
structured error with message `disk full`, the string `{"Err":"disk full"}` decodes
without error and gives the structured error with the empty message, and the string
`boom` gives the plain error with message `boom`. -/
theorem mount_error_decoding {σ ω : Type}
    (unmarshal : String → Option voldriver.SafeError) (d : DockerDriverPlugin σ ω)
    (volumeId : String) (opts : ω) (s : σ) (e : String) (he : e ≠ "")
    (hc : (d.DockerDriver.driver.Create { Name := volumeId, Opts := opts } s).1.Err = "")
    (hm : (d.DockerDriver.driver.Mount { Name := volumeId }
          (d.DockerDriver.driver.Create { Name := volumeId, Opts := opts } s).2).1.Err = e) :
    (∀ safeError, unmarshal e = some safeError →
      (Mount unmarshal d volumeId opts s).ret = ({ Path := "" }, some (GoError.safeError safeError)) ∧
      (GoError.safeError safeError).Error = safeError.message) ∧
    (unmarshal e = none →
      (Mount unmarshal d volumeId opts s).ret = ({ Path := "" }, some (GoError.errorString e)) ∧
      (GoError.errorString e).Error = e) ∧
    (e = "\x7b\"SafeDescription\":\"disk full\"\x7d" →
      (Mount json.Unmarshal d volumeId opts s).ret
        = ({ Path := "" }, some (GoError.safeError { message := "disk full" }))) ∧
    (e = "\x7b\"Err\":\"disk full\"\x7d" →
      (Mount json.Unmarshal d volumeId opts s).ret
        = ({ Path := "" }, some (GoError.safeError { message := "" }))) ∧
    (e = "boom" →
      (Mount json.Unmarshal d volumeId opts s).ret
        = ({ Path := "" }, some (GoError.errorString "boom"))) := by
  subst hm
  have h := Mount_ret_of_mount_error unmarshal d volumeId opts s hc he
  have hj := Mount_ret_of_mount_error json.Unmarshal d volumeId opts s hc he
  refine ⟨?_, ?_, ?_, ?_, ?_⟩
  · intro safeError hs
    rw [h, hs]
    exact ⟨rfl, rfl⟩
  · intro hn
    rw [h, hn]
    exact ⟨rfl, rfl⟩
  · intro hk
    have hd : json.Unmarshal "\x7b\"SafeDescription\":\"disk full\"\x7d"
        = some { message := "disk full" } := by decide
    rw [hj, hk, hd]
  · intro hk
    have hd : json.Unmarshal "\x7b\"Err\":\"disk full\"\x7d" = some { message := "" } := by
      decide
    rw [hj, hk, hd]
  · intro hk
    have hd : json.Unmarshal "boom" = none := by decide
    rw [hj, hk, hd]

/-- Witness for C1: a driver whose Mount step reports `{"SafeDescription":"disk full"}`
makes `Mount` return the structured error with message `disk full`, and one whose
Mount step reports `boom` the plain error with message `boom`. -/
theorem mount_error_decoding_witness :
    "\x7b\"SafeDescription\":\"disk full\"\x7d" ≠ "" ∧
    (Mount json.Unmarshal
        (scriptedPlugin { Volumes := [], Err := "" } ""
          { Mountpoint := "", Err := "\x7b\"SafeDescription\":\"disk full\"\x7d" } "")
        "vol" [] 0).ret
      = ({ Path := "" }, some (GoError.safeError { message := "disk full" })) ∧
    json.Unmarshal "boom" = none ∧
    (Mount json.Unmarshal
        (scriptedPlugin { Volumes := [], Err := "" } ""
          { Mountpoint := "", Err := "boom" } "") "vol" [] 0).ret
      = ({ Path := "" }, some (GoError.errorString "boom")) :=
  ⟨by decide,
   (mount_error_decoding json.Unmarshal
      (scriptedPlugin { Volumes := [], Err := "" } ""
        { Mountpoint := "", Err := "\x7b\"SafeDescription\":\"disk full\"\x7d" } "") "vol" [] 0
      "\x7b\"SafeDescription\":\"disk full\"\x7d" (by decide) rfl rfl).2.2.1 rfl,
   by decide,
   ((mount_error_decoding json.Unmarshal
      (scriptedPlugin { Volumes := [], Err := "" } ""
        { Mountpoint := "", Err := "boom" } "") "vol" [] 0
      "boom" (by decide) rfl rfl).2.1 (by decide)).1⟩

/-- Counterexample to C1 as stated: the string `{"Err":"disk full"}` is a payload that
decodes without error, yet the structured error `Mount` returns for it carries the
empty message, not `disk full`. -/
theorem mount_error_decoding_counterexample :
    json.Unmarshal "\x7b\"Err\":\"disk full\"\x7d" = some { message := "" } ∧
    (Mount json.Unmarshal
        (scriptedPlugin { Volumes := [], Err := "" } ""
          { Mountpoint := "", Err := "\x7b\"Err\":\"disk full\"\x7d" } "") "vol" [] 0).ret
      = ({ Path := "" }, some (GoError.safeError { message := "" })) ∧
    ¬ ((Mount json.Unmarshal
        (scriptedPlugin { Volumes := [], Err := "" } ""
          { Mountpoint := "", Err := "\x7b\"Err\":\"disk full\"\x7d" } "") "vol" [] 0).ret
      = ({ Path := "" }, some (GoError.safeError { message := "disk full" }))) := by
  decide

/-! ## Unmounting -/

/-- What `Unmount` gives back when the driver reports an error. -/
theorem Unmount_ret_of_error {σ ω : Type} (unmarshal : String → Option voldriver.SafeError)
    (d : DockerDriverPlugin σ ω) (volumeId : String) (s : σ)
    (h : (d.DockerDriver.driver.Unmount { Name := volumeId } s).1.Err ≠ "") :
    (Unmount unmarshal d volumeId s).ret
      = some (match unmarshal (d.DockerDriver.driver.Unmount { Name := volumeId } s).1.Err with
              | some safeError => GoError.safeError safeError
              | none => GoError.errorString
                  (d.DockerDriver.driver.Unmount { Name := volumeId } s).1.Err) := by
  simp [Unmount, h]

/-- What `Unmount` gives back when the driver reports no error. -/
theorem Unmount_ret_of_ok {σ ω : Type} (unmarshal : String → Option voldriver.SafeError)
    (d : DockerDriverPlugin σ ω) (volumeId : String) (s : σ)
    (h : (d.DockerDriver.driver.Unmount { Name := volumeId } s).1.Err = "") :
    (Unmount unmarshal d volumeId s).ret = none := by
  simp [Unmount, h]

/-- The driver state `Unmount` leaves behind: the state after the driver's Unmount. -/
theorem Unmount_state {σ ω : Type} (unmarshal : String → Option voldriver.SafeError)
    (d : DockerDriverPlugin σ ω) (volumeId : String) (s : σ) :
    (Unmount unmarshal d volumeId s).state
      = (d.DockerDriver.driver.Unmount { Name := volumeId } s).2 := by
  unfold Unmount
  simp only []
  split <;> rfl

/-- C7: `Unmount` applies the decode policy of `Mount`.  It calls the driver's Unmount
once, with the given volume id; when the error string of the answer is empty it
returns no error; and for every non-empty error string `e` the error it returns equals
the error `Mount` returns, on any driver, when Create succeeds and the Mount step
reports the same string `e`. -/
theorem unmount_decodes_as_mount {σ ω τ κ : Type}
    (unmarshal : String → Option voldriver.SafeError)
    (d : DockerDriverPlugin σ ω) (volumeId : String) (s : σ) (calls : List (DriverCall ω))
    (dm : DockerDriverPlugin τ κ) (mountId : String) (opts : κ) (t : τ) :
    (Unmount unmarshal (recording d) volumeId (s, calls)).state.2
      = calls ++ [DriverCall.Unmount { Name := volumeId }] ∧
    (Unmount unmarshal d volumeId s).state
      = (d.DockerDriver.driver.Unmount { Name := volumeId } s).2 ∧
    ((d.DockerDriver.driver.Unmount { Name := volumeId } s).1.Err = "" →
      (Unmount unmarshal d volumeId s).ret = none) ∧
    (∀ e : String, e ≠ "" →
      (d.DockerDriver.driver.Unmount { Name := volumeId } s).1.Err = e →
      (dm.DockerDriver.driver.Create { Name := mountId, Opts := opts } t).1.Err = "" →
      (dm.DockerDriver.driver.Mount { Name := mountId }
          (dm.DockerDriver.driver.Create { Name := mountId, Opts := opts } t).2).1.Err = e →
      (Unmount unmarshal d volumeId s).ret = (Mount unmarshal dm mountId opts t).ret.2 ∧
      (Unmount unmarshal d volumeId s).ret ≠ none) := by
  refine ⟨?_, Unmount_state unmarshal d volumeId s, Unmount_ret_of_ok unmarshal d volumeId s, ?_⟩
  · rw [Unmount_state]; rfl
  · intro e he hu hc hm
    subst hu
    rw [Unmount_ret_of_error unmarshal d volumeId s he,
      Mount_ret_of_mount_error unmarshal dm mountId opts t hc (by rw [hm]; exact he), hm]
    exact ⟨rfl, by simp⟩

/-- Witness for C7: the same structured payload, and the same plain string, reported
by Unmount and by the Mount step, give equal errors. -/
theorem unmount_decodes_as_mount_witness :
    (Unmount json.Unmarshal
        (scriptedPlugin { Volumes := [], Err := "" } "" { Mountpoint := "", Err := "" }
          "\x7b\"SafeDescription\":\"busy\"\x7d") "vol" 0).ret
      = some (GoError.safeError ⟨"busy"⟩) ∧
    (Mount json.Unmarshal
        (scriptedPlugin { Volumes := [], Err := "" } ""
          { Mountpoint := "/var/vcap/data/v", Err := "\x7b\"SafeDescription\":\"busy\"\x7d" } "")
        "other" [("k", "v")] 7).ret.2
      = some (GoError.safeError ⟨"busy"⟩) ∧
    (Unmount json.Unmarshal
        (scriptedPlugin { Volumes := [], Err := "" } "" { Mountpoint := "", Err := "" }
          "\x7b\"SafeDescription\":\"busy\"\x7d") "vol" 0).ret
      = (Mount json.Unmarshal
          (scriptedPlugin { Volumes := [], Err := "" } ""
            { Mountpoint := "/var/vcap/data/v", Err := "\x7b\"SafeDescription\":\"busy\"\x7d" } "")
          "other" [("k", "v")] 7).ret.2 ∧
    (Unmount json.Unmarshal
        (recording (scriptedPlugin { Volumes := [], Err := "" } "" { Mountpoint := "", Err := "" }
          "\x7b\"SafeDescription\":\"busy\"\x7d")) "vol" (0, [])).state.2
      = [DriverCall.Unmount { Name := "vol" }] :=
  have h := unmount_decodes_as_mount json.Unmarshal
    (scriptedPlugin { Volumes := [], Err := "" } "" { Mountpoint := "", Err := "" }
      "\x7b\"SafeDescription\":\"busy\"\x7d") "vol" 0 []
    (scriptedPlugin { Volumes := [], Err := "" } ""
      { Mountpoint := "/var/vcap/data/v", Err := "\x7b\"SafeDescription\":\"busy\"\x7d" } "")
    "other" [("k", "v")] 7
  ⟨by decide, by decide,
   (h.2.2.2 "\x7b\"SafeDescription\":\"busy\"\x7d" (by decide) rfl rfl rfl).1, h.1⟩

/-! ## Results and errors -/

/-- C8: `Mount` never returns a path alongside an error.  Whenever it returns an error
the response is the empty one, also when the driver's Mount step supplied a mountpoint
together with its error string; and whenever the returned path is not empty it is the
mountpoint of the driver's Mount step and the error is absent. -/
theorem mount_no_path_with_error {σ ω : Type}
    (unmarshal : String → Option voldriver.SafeError) (d : DockerDriverPlugin σ ω)
    (volumeId : String) (opts : ω) (s : σ) :
    ((Mount unmarshal d volumeId opts s).ret.2 ≠ none →
      (Mount unmarshal d volumeId opts s).ret.1 = { Path := "" }) ∧
    ((Mount unmarshal d volumeId opts s).ret.1.Path ≠ "" →
      (Mount unmarshal d volumeId opts s).ret.2 = none ∧
      (Mount unmarshal d volumeId opts s).ret.1.Path
        = (d.DockerDriver.driver.Mount { Name := volumeId }
            (d.DockerDriver.driver.Create { Name := volumeId, Opts := opts } s).2).1.Mountpoint) ∧
    ((d.DockerDriver.driver.Create { Name := volumeId, Opts := opts } s).1.Err = "" →
      (d.DockerDriver.driver.Mount { Name := volumeId }
          (d.DockerDriver.driver.Create { Name := volumeId, Opts := opts } s).2).1.Err ≠ "" →
      (Mount unmarshal d volumeId opts s).ret.1 = { Path := "" } ∧
      (Mount unmarshal d volumeId opts s).ret.2 ≠ none) := by
  by_cases hc : (d.DockerDriver.driver.Create { Name := volumeId, Opts := opts } s).1.Err = ""
  · by_cases hm : (d.DockerDriver.driver.Mount { Name := volumeId }
        (d.DockerDriver.driver.Create { Name := volumeId, Opts := opts } s).2).1.Err = ""
    · rw [Mount_ret_of_ok unmarshal d volumeId opts s hc hm]
      simp [hm]
    · rw [Mount_ret_of_mount_error unmarshal d volumeId opts s hc hm]
      simp
  · rw [(Mount_of_create_error unmarshal d volumeId opts s hc).1]
    simp [hc]

/-- Witness for C8: the driver's Mount step supplies the mountpoint `/var/vcap/data/v`
together with the error string `boom`; the adapter returns the empty path. -/
theorem mount_no_path_with_error_witness :
    (Mount json.Unmarshal
        (scriptedPlugin { Volumes := [], Err := "" } ""
          { Mountpoint := "/var/vcap/data/v", Err := "boom" } "") "vol" [] 0).ret.1
      = { Path := "" } ∧
    (Mount json.Unmarshal
        (scriptedPlugin { Volumes := [], Err := "" } ""
          { Mountpoint := "/var/vcap/data/v", Err := "boom" } "") "vol" [] 0).ret.2 ≠ none :=
  (mount_no_path_with_error json.Unmarshal
      (scriptedPlugin { Volumes := [], Err := "" } ""
        { Mountpoint := "/var/vcap/data/v", Err := "boom" } "") "vol" [] 0).2.2 rfl (by decide)

/-- C9: the empty error string is the sole success signal.  `ListVolumes` returns no
error exactly when the List error string is empty, `Unmount` exactly when the Unmount
error string is empty, and `Mount` exactly when the Create error string and the error
string of the Mount step are both empty.  In particular a non-empty error string that
decodes to a payload with the empty message still yields an error. -/
theorem empty_error_string_sole_success_signal {σ ω : Type}
    (unmarshal : String → Option voldriver.SafeError) (d : DockerDriverPlugin σ ω)
    (volumeId : String) (opts : ω) (s : σ) :
    ((ListVolumes d s).ret.2 = none ↔ (d.DockerDriver.driver.List s).1.Err = "") ∧
    ((Unmount unmarshal d volumeId s).ret = none
      ↔ (d.DockerDriver.driver.Unmount { Name := volumeId } s).1.Err = "") ∧
    ((Mount unmarshal d volumeId opts s).ret.2 = none
      ↔ (d.DockerDriver.driver.Create { Name := volumeId, Opts := opts } s).1.Err = "" ∧
        (d.DockerDriver.driver.Mount { Name := volumeId }
          (d.DockerDriver.driver.Create { Name := volumeId, Opts := opts } s).2).1.Err = "") ∧
    (∀ e : String, e ≠ "" → unmarshal e = some { message := "" } →
      ((d.DockerDriver.driver.Unmount { Name := volumeId } s).1.Err = e →
        (Unmount unmarshal d volumeId s).ret = some (GoError.safeError { message := "" })) ∧
      ((d.DockerDriver.driver.Create { Name := volumeId, Opts := opts } s).1.Err = "" →
        (d.DockerDriver.driver.Mount { Name := volumeId }
          (d.DockerDriver.driver.Create { Name := volumeId, Opts := opts } s).2).1.Err = e →
        (Mount unmarshal d volumeId opts s).ret.2 = some (GoError.safeError { message := "" }))) := by
  refine ⟨?_, ?_, ?_, ?_⟩
  · by_cases hl : (d.DockerDriver.driver.List s).1.Err = ""
    · simp [(ListVolumes_ret_of_ok d s hl), hl]
    · simp [ListVolumes, hl]
  · by_cases hu : (d.DockerDriver.driver.Unmount { Name := volumeId } s).1.Err = ""
    · simp [Unmount_ret_of_ok unmarshal d volumeId s hu, hu]
    · simp [Unmount_ret_of_error unmarshal d volumeId s hu, hu]
  · by_cases hc : (d.DockerDriver.driver.Create { Name := volumeId, Opts := opts } s).1.Err = ""
    · by_cases hm : (d.DockerDriver.driver.Mount { Name := volumeId }
          (d.DockerDriver.driver.Create { Name := volumeId, Opts := opts } s).2).1.Err = ""
      · simp [Mount_ret_of_ok unmarshal d volumeId opts s hc hm, hc, hm]
      · simp [Mount_ret_of_mount_error unmarshal d volumeId opts s hc hm, hc, hm]
    · simp [(Mount_of_create_error unmarshal d volumeId opts s hc).1, hc]
  · intro e he hdec
    constructor
    · intro hu
      subst hu
      rw [Unmount_ret_of_error unmarshal d volumeId s he, hdec]
    · intro hc hm
      subst hm
      rw [Mount_ret_of_mount_error unmarshal d volumeId opts s hc he, hdec]

/-- Witness for C9: the non-empty error string `{}` decodes to the payload with the
empty message, and both `Unmount` and `Mount` still return an error. -/
theorem empty_error_string_sole_success_signal_witness :
    json.Unmarshal "\x7b\x7d" = some { message := "" } ∧
    (Unmount json.Unmarshal
        (scriptedPlugin { Volumes := [], Err := "" } ""
          { Mountpoint := "", Err := "\x7b\x7d" } "\x7b\x7d") "vol" 0).ret
      = some (GoError.safeError { message := "" }) ∧
    (Mount json.Unmarshal
        (scriptedPlugin { Volumes := [], Err := "" } ""
          { Mountpoint := "", Err := "\x7b\x7d" } "\x7b\x7d") "vol" [] 0).ret.2
      = some (GoError.safeError { message := "" }) :=
  have h := (empty_error_string_sole_success_signal json.Unmarshal
      (scriptedPlugin { Volumes := [], Err := "" } ""
        { Mountpoint := "", Err := "\x7b\x7d" } "\x7b\x7d") "vol" [] 0).2.2.2
      "\x7b\x7d" (by decide) (by decide)
  ⟨by decide, h.1 rfl, h.2 rfl rfl⟩

/-! ## Decoding without a message -/

/-- C10: the choice between the structured and the plain variant follows the outcome
of the decode alone.  For every error string `json.Unmarshal` accepts, `Unmount` and
`Mount` (after a successful Create) return the structured variant, and for every other
non-empty one the plain variant.  When the error string is a JSON text that is `null`
or an object without a member for the message field, both return the structured error
with the empty message, which does not contain the non-empty raw string. -/
theorem structured_choice_follows_decode {σ ω : Type}
    (d : DockerDriverPlugin σ ω) (volumeId : String) (opts : ω) (s : σ)
    (e : String) (v : json.Value)
    (hparse : json.parse e = some v)
    (hfield : v = json.Value.null ∨
      ∃ ms, v = json.Value.object ms ∧
        ∀ m ∈ ms, json.fieldMatches "SafeDescription" m.1 = false) :
    e ≠ "" ∧
    json.Unmarshal e = some { message := "" } ∧
    ((d.DockerDriver.driver.Create { Name := volumeId, Opts := opts } s).1.Err = "" →
      (d.DockerDriver.driver.Mount { Name := volumeId }
          (d.DockerDriver.driver.Create { Name := volumeId, Opts := opts } s).2).1.Err = e →
      (Mount json.Unmarshal d volumeId opts s).ret
        = ({ Path := "" }, some (GoError.safeError { message := "" }))) ∧
    ((d.DockerDriver.driver.Unmount { Name := volumeId } s).1.Err = e →
      (Unmount json.Unmarshal d volumeId s).ret
        = some (GoError.safeError { message := "" })) ∧
    ¬ (e.toList <:+: (GoError.safeError { message := "" }).Error.toList) ∧
    (∀ e1 : String, e1 ≠ "" →
      ((d.DockerDriver.driver.Unmount { Name := volumeId } s).1.Err = e1 →
        ∃ err, (Unmount json.Unmarshal d volumeId s).ret = some err ∧
          err.isSafe = (json.Unmarshal e1).isSome) ∧
      ((d.DockerDriver.driver.Create { Name := volumeId, Opts := opts } s).1.Err = "" →
        (d.DockerDriver.driver.Mount { Name := volumeId }
          (d.DockerDriver.driver.Create { Name := volumeId, Opts := opts } s).2).1.Err = e1 →
        ∃ err, (Mount json.Unmarshal d volumeId opts s).ret.2 = some err ∧
          err.isSafe = (json.Unmarshal e1).isSome)) := by
  have hne : e ≠ "" := by
    intro h0
    rw [h0, json.parse_empty] at hparse
    exact Option.noConfusion hparse
  have hdec : json.Unmarshal e = some { message := "" } := by
    simp [json.Unmarshal, json.unmarshalSafeError, hparse,
      json.unmarshalValue_of_no_field "SafeDescription" v hfield]
  refine ⟨hne, hdec, ?_, ?_, ?_, ?_⟩
  · intro hc hm
    subst hm
    rw [Mount_ret_of_mount_error _ d volumeId opts s hc hne, hdec]
  · intro hu
    subst hu
    rw [Unmount_ret_of_error _ d volumeId s hne, hdec]
  · intro hin
    have h1 : e.toList = [] := List.infix_nil.mp hin
    apply hne
    cases e with
    | mk cs => cases h1; rfl
  · intro e1 he1
    constructor
    · intro hu
      subst hu
      rw [Unmount_ret_of_error _ d volumeId s he1]
      cases hx : json.Unmarshal
          (d.DockerDriver.driver.Unmount { Name := volumeId } s).1.Err with
      | none => exact ⟨_, rfl, rfl⟩
      | some se => exact ⟨_, rfl, rfl⟩
    · intro hc hm
      subst hm
      rw [Mount_ret_of_mount_error _ d volumeId opts s hc he1]
      cases hx : json.Unmarshal
          (d.DockerDriver.driver.Mount { Name := volumeId }
            (d.DockerDriver.driver.Create { Name := volumeId, Opts := opts } s).2).1.Err with
      | none => exact ⟨_, rfl, rfl⟩
      | some se => exact ⟨_, rfl, rfl⟩

/-- Witness for C10: the error strings `{}` (an object without members) and `null`. -/
theorem structured_choice_follows_decode_witness :
    json.parse "\x7b\x7d" = some (json.Value.object []) ∧
    (Mount json.Unmarshal
        (scriptedPlugin { Volumes := [], Err := "" } ""
          { Mountpoint := "/var/vcap/data/v", Err := "\x7b\x7d" } "\x7b\x7d") "vol" [] 0).ret
      = ({ Path := "" }, some (GoError.safeError { message := "" })) ∧
    (Unmount json.Unmarshal
        (scriptedPlugin { Volumes := [], Err := "" } ""
          { Mountpoint := "/var/vcap/data/v", Err := "\x7b\x7d" } "\x7b\x7d") "vol" 0).ret
      = some (GoError.safeError { message := "" }) ∧
    json.parse "null" = some json.Value.null ∧
    (Unmount json.Unmarshal
        (scriptedPlugin { Volumes := [], Err := "" } ""
          { Mountpoint := "", Err := "" } "null") "vol" 0).ret
      = some (GoError.safeError { message := "" }) :=
  have h1 := structured_choice_follows_decode
    (scriptedPlugin { Volumes := [], Err := "" } ""
      { Mountpoint := "/var/vcap/data/v", Err := "\x7b\x7d" } "\x7b\x7d") "vol" [] 0
    "\x7b\x7d" (json.Value.object []) rfl
    (Or.inr ⟨[], rfl, fun _ hm => absurd hm (List.not_mem_nil _)⟩)
  have h2 := structured_choice_follows_decode
    (scriptedPlugin { Volumes := [], Err := "" } ""
      { Mountpoint := "", Err := "" } "null") "vol" [] 0
    "null" json.Value.null rfl (Or.inl rfl)
  ⟨rfl, h1.2.2.1 rfl rfl, h1.2.2.2.1 rfl, rfl, h2.2.2.2.1 rfl⟩

/-! ## Matching -/

/-- C3: `Matches` equals its reference definition, in result and in the driver state it
leaves.  Without the match capability the result is `false`, the driver state is
untouched and the recording double notes no call.  With it, the capability is called
once, with the spec's address and a descriptor that is absent exactly when the spec's
is absent and otherwise agrees with it on the skip-verify flag, the CA file, the cert
file and the key file, and the result is the capability's answer. -/
theorem matches_eq_reference {σ ω : Type} (dw : DockerDriverPlugin σ ω)
    (pluginSpec : volman.PluginSpec) (s : σ) (calls : List (DriverCall ω)) :
    (Matches dw pluginSpec s).ret = (MatchesReference dw pluginSpec s).1 ∧
    (Matches dw pluginSpec s).state = (MatchesReference dw pluginSpec s).2 ∧
    (dw.DockerDriver.matchable = none →
      (Matches dw pluginSpec s).ret = false ∧
      (Matches dw pluginSpec s).state = s ∧
      (Matches (recording dw) pluginSpec (s, calls)).ret = false ∧
      (Matches (recording dw) pluginSpec (s, calls)).state.2 = calls) ∧
    (∀ capability, dw.DockerDriver.matchable = some capability →
      ∃ tlsConfig : Option voldriver.TLSConfig,
        (tlsConfig = none ↔ pluginSpec.TLSConfig = none) ∧
        (∀ c t, pluginSpec.TLSConfig = some c → tlsConfig = some t →
          t.InsecureSkipVerify = c.InsecureSkipVerify ∧ t.CAFile = c.CAFile ∧
          t.CertFile = c.CertFile ∧ t.KeyFile = c.KeyFile) ∧
        (Matches dw pluginSpec s).ret
          = (capability.Matches pluginSpec.Address tlsConfig s).1 ∧
        (Matches dw pluginSpec s).state
          = (capability.Matches pluginSpec.Address tlsConfig s).2 ∧
        (Matches (recording dw) pluginSpec (s, calls)).state.2
          = calls ++ [DriverCall.Matches pluginSpec.Address tlsConfig]) := by
  cases hcap : dw.DockerDriver.matchable with
  | none =>
    have hrec : (recording dw).DockerDriver.matchable = none := by
      simp [recording, NewDockerPluginWithDriver, hcap]
    refine ⟨?_, ?_, ?_, ?_⟩
    · simp [Matches, MatchesReference, hcap]
    · simp [Matches, MatchesReference, hcap]
    · intro _
      simp [Matches, hcap, hrec]
    · intro capability h
      exact Option.noConfusion h
  | some m =>
    have hrec : (recording dw).DockerDriver.matchable = some (recordingMatchable ω m) := by
      simp [recording, NewDockerPluginWithDriver, hcap]
    refine ⟨?_, ?_, ?_, ?_⟩
    · cases htls : pluginSpec.TLSConfig <;> simp [Matches, MatchesReference, hcap, htls]
    · cases htls : pluginSpec.TLSConfig <;> simp [Matches, MatchesReference, hcap, htls]
    · intro h
      exact Option.noConfusion h
    · intro capability h
      cases h
      cases htls : pluginSpec.TLSConfig with
      | none =>
        refine ⟨none, by simp, ?_, ?_, ?_, ?_⟩
        · intro c t _ ht
          exact Option.noConfusion ht
        · simp [Matches, hcap, htls]
        · simp [Matches, hcap, htls]
        · simp [Matches, hrec, htls, recordingMatchable]
      | some c =>
        refine ⟨some { InsecureSkipVerify := c.InsecureSkipVerify, CAFile := c.CAFile,
                       CertFile := c.CertFile, KeyFile := c.KeyFile }, by simp, ?_, ?_, ?_, ?_⟩
        · intro c1 t hc ht
          cases hc
          cases ht
          exact ⟨rfl, rfl, rfl, rfl⟩
        · simp [Matches, hcap, htls]
        · simp [Matches, hcap, htls]
        · simp [Matches, hrec, htls, recordingMatchable]

/-- Witness for C3: a driver without the capability answers `false` and receives no
call; a driver with it is called with the address and the copied descriptor and its
answer is returned. -/
theorem matches_eq_reference_witness :
    (Matches (scriptedPlugin { Volumes := [], Err := "" } "" { Mountpoint := "", Err := "" } "")
        { Address := "unix:///run/d.sock", TLSConfig := none } 0).ret = false ∧
    (Matches (recording
          (scriptedPlugin { Volumes := [], Err := "" } "" { Mountpoint := "", Err := "" } ""))
        { Address := "unix:///run/d.sock", TLSConfig := none } (0, [])).state.2 = [] ∧
    (Matches matchablePlugin
        { Address := "unix:///run/d.sock"
          TLSConfig := some { InsecureSkipVerify := false, CAFile := "ca.pem",
                              CertFile := "cert.pem", KeyFile := "key.pem" } } 0).ret = true ∧
    (Matches (recording matchablePlugin)
        { Address := "unix:///run/d.sock"
          TLSConfig := some { InsecureSkipVerify := false, CAFile := "ca.pem",
                              CertFile := "cert.pem", KeyFile := "key.pem" } } (0, [])).state.2
      = [DriverCall.Matches "unix:///run/d.sock"
          (some { InsecureSkipVerify := false, CAFile := "ca.pem",
                  CertFile := "cert.pem", KeyFile := "key.pem" })] :=
  have h1 := (matches_eq_reference
      (scriptedPlugin { Volumes := [], Err := "" } "" { Mountpoint := "", Err := "" } "")
      { Address := "unix:///run/d.sock", TLSConfig := none } 0 []).2.2.1 rfl
  have h2 := (matches_eq_reference matchablePlugin
      { Address := "unix:///run/d.sock"
        TLSConfig := some { InsecureSkipVerify := false, CAFile := "ca.pem",
                            CertFile := "cert.pem", KeyFile := "key.pem" } } 0 []).1
  ⟨h1.1, h1.2.2.2, h2.trans (by decide), by decide⟩

end driverhttp
